import Mathlib

set_option maxRecDepth 100000

/-!
Shallow embedding of `src/crates/interledger-stream/src/crypto.rs`.

Byte sequences are `List Nat` (each element intended `< 256`).  The modules own
external dependencies (the `ring` crate HMAC-SHA256, SHA-256 and AES-256-GCM) are
embedded by their standard definitions (FIPS 180-4, RFC 2104, FIPS 197,
NIST SP 800-38D), which is what `ring` implements and what the spec cites;
the embedding is validated below against the interoperability
test vectors (`it_generates_the_same_fulfillment_as_javascript`,
`it_encrypts_to_same_as_javascript`).
-/

namespace Crypto

/-- Big-endian interpretation of a byte list as a natural number. -/
def bytesToWord (bs : List Nat) : Nat :=
  bs.foldl (fun acc b => acc * 256 + b) 0

/-- The sixteen big-endian bytes of a 128-bit word. -/
def word128ToBytes (x : Nat) : List Nat :=
  (List.range 16).map (fun i => (x >>> (8 * (15 - i))) % 256)

/-- The four big-endian bytes of a 32-bit word. -/
def word32ToBytes (x : Nat) : List Nat :=
  [(x >>> 24) % 256, (x >>> 16) % 256, (x >>> 8) % 256, x % 256]

/-- Right rotation of a 32-bit word. -/
def rotr32 (n x : Nat) : Nat :=
  ((x >>> n) ||| (x <<< (32 - n))) % 2 ^ 32

/-! ### SHA-256 (FIPS 180-4) -/

/-- The 64 SHA-256 round constants, packed big-endian into one natural
number: constant `t` occupies bit positions `32*(63-t) .. 32*(63-t)+31`. -/
def sha256KPacked : Nat :=
  0x428a2f9871374491b5c0fbcfe9b5dba53956c25b59f111f1923f82a4ab1c5ed5d807aa9812835b01243185be550c7dc372be5d7480deb1fe9bdc06a7c19bf174e49b69c1efbe47860fc19dc6240ca1cc2de92c6f4a7484aa5cb0a9dc76f988da983e5152a831c66db00327c8bf597fc7c6e00bf3d5a7914706ca63511429296727b70a852e1b21384d2c6dfc53380d13650a7354766a0abb81c2c92e92722c85a2bfe8a1a81a664bc24b8b70c76c51a3d192e819d6990624f40e3585106aa07019a4c1161e376c082748774c34b0bcb5391c0cb34ed8aa4a5b9cca4f682e6ff3748f82ee78a5636f84c878148cc7020890befffaa4506cebbef9a3f7c67178f2

/-- SHA-256 round constant number `t`. -/
def sha256KAt (t : Nat) : Nat := (sha256KPacked >>> (32 * (63 - t))) % 2 ^ 32

/-- The eight 32-bit words of a SHA-256 intermediate hash value. -/
structure Hash8 where
  a : Nat
  b : Nat
  c : Nat
  d : Nat
  e : Nat
  f : Nat
  g : Nat
  h : Nat

/-- SHA-256 initial hash value. -/
def sha256H0 : Hash8 :=
  ⟨0x6a09e667, 0xbb67ae85, 0x3c6ef372, 0xa54ff53a,
   0x510e527f, 0x9b05688c, 0x1f83d9ab, 0x5be0cd19⟩

/-- Message-schedule sigma-0. -/
def ssig0 (x : Nat) : Nat := rotr32 7 x ^^^ rotr32 18 x ^^^ (x >>> 3)

/-- Message-schedule sigma-1. -/
def ssig1 (x : Nat) : Nat := rotr32 17 x ^^^ rotr32 19 x ^^^ (x >>> 10)

/-- Compression Sigma-0. -/
def bsig0 (x : Nat) : Nat := rotr32 2 x ^^^ rotr32 13 x ^^^ rotr32 22 x

/-- Compression Sigma-1. -/
def bsig1 (x : Nat) : Nat := rotr32 6 x ^^^ rotr32 11 x ^^^ rotr32 25 x

/-- Extend the sixteen block words to the 64-entry message schedule. -/
def sha256Schedule (w16 : List Nat) : List Nat :=
  (List.range 48).foldl
    (fun w _ =>
      let t := w.length
      let s0 := ssig0 (w.getD (t - 15) 0)
      let s1 := ssig1 (w.getD (t - 2) 0)
      w ++ [(w.getD (t - 16) 0 + s0 + w.getD (t - 7) 0 + s1) % 2 ^ 32])
    w16

/-- One SHA-256 compression round. -/
def sha256Round (s : Hash8) (kw : Nat) : Hash8 :=
  let t1 := (s.h + bsig1 s.e + ((s.e &&& s.f) ^^^ ((2 ^ 32 - 1 - s.e) &&& s.g))
              + kw) % 2 ^ 32
  let t2 := (bsig0 s.a + ((s.a &&& s.b) ^^^ (s.a &&& s.c) ^^^ (s.b &&& s.c)))
              % 2 ^ 32
  ⟨(t1 + t2) % 2 ^ 32, s.a, s.b, s.c, (s.d + t1) % 2 ^ 32, s.e, s.f, s.g⟩

/-- Process one 64-byte block, given as bytes, updating the hash state. -/
def sha256Compress (st : Hash8) (block : List Nat) : Hash8 :=
  let w16 := (List.range 16).map (fun j => bytesToWord ((block.drop (4 * j)).take 4))
  let ws := sha256Schedule w16
  let fin := (List.range 64).foldl
    (fun s t => sha256Round s ((sha256KAt t + ws.getD t 0) % 2 ^ 32)) st
  ⟨(st.a + fin.a) % 2 ^ 32, (st.b + fin.b) % 2 ^ 32, (st.c + fin.c) % 2 ^ 32,
   (st.d + fin.d) % 2 ^ 32, (st.e + fin.e) % 2 ^ 32, (st.f + fin.f) % 2 ^ 32,
   (st.g + fin.g) % 2 ^ 32, (st.h + fin.h) % 2 ^ 32⟩

/-- SHA-256 padding: append 0x80, zero bytes, and the 64-bit bit length. -/
def sha256Pad (msg : List Nat) : List Nat :=
  msg ++ [0x80] ++ List.replicate ((119 - msg.length % 64) % 64) 0
      ++ (word32ToBytes ((8 * msg.length) / 2 ^ 32) ++ word32ToBytes (8 * msg.length))

/-- The 32 digest bytes of a final hash state. -/
def hash8Bytes (s : Hash8) : List Nat :=
  word32ToBytes s.a ++ word32ToBytes s.b ++ word32ToBytes s.c ++ word32ToBytes s.d ++
  word32ToBytes s.e ++ word32ToBytes s.f ++ word32ToBytes s.g ++ word32ToBytes s.h

/-- SHA-256 of a byte sequence (FIPS 180-4). -/
def sha256 (msg : List Nat) : List Nat :=
  let padded := sha256Pad msg
  let n := padded.length / 64
  hash8Bytes ((List.range n).foldl
    (fun st i => sha256Compress st ((padded.drop (64 * i)).take 64)) sha256H0)

/-! ### HMAC-SHA256 (RFC 2104) -/

/-- HMAC key normalised to the 64-byte block size. -/
def hmacKeyBlock (key : List Nat) : List Nat :=
  let k0 := if 64 < key.length then sha256 key else key
  k0 ++ List.replicate (64 - k0.length) 0

/-- Embeds `hmac_sha256` from crypto.rs (in ring, `hmac::sign` with
`HMAC_SHA256`, per RFC 2104). -/
def hmac_sha256 (key message : List Nat) : List Nat :=
  let kb := hmacKeyBlock key
  sha256 ((kb.map (fun b => b ^^^ 0x5c)) ++ sha256 ((kb.map (fun b => b ^^^ 0x36)) ++ message))

/-! ### The modules own domain-separation labels and fulfillment functions -/

/-- Bytes of the protocol string "ilp_stream_encryption". -/
def ENCRYPTION_KEY_STRING : List Nat :=
  [105, 108, 112, 95, 115, 116, 114, 101, 97, 109, 95, 101, 110, 99, 114, 121,
   112, 116, 105, 111, 110]

/-- Bytes of the protocol string "ilp_stream_fulfillment". -/
def FULFILLMENT_GENERATION_STRING : List Nat :=
  [105, 108, 112, 95, 115, 116, 114, 101, 97, 109, 95, 102, 117, 108, 102, 105,
   108, 108, 109, 101, 110, 116]

/-- Embeds `generate_fulfillment` from crypto.rs. -/
def generate_fulfillment (shared_secret data : List Nat) : List Nat :=
  let key := hmac_sha256 shared_secret FULFILLMENT_GENERATION_STRING
  hmac_sha256 key data

/-- Embeds `hash_sha256` from crypto.rs (in ring, `digest::SHA256`). -/
def hash_sha256 (preimage : List Nat) : List Nat :=
  sha256 preimage

/-- Embeds `generate_condition` from crypto.rs. -/
def generate_condition (shared_secret data : List Nat) : List Nat :=
  hash_sha256 (generate_fulfillment shared_secret data)

/-! ### AES-256 (FIPS 197) -/

/-- The AES S-box, packed into one natural number: entry `i` occupies
bit positions `8*i .. 8*i+7`. -/
def sboxPacked : Nat :=
  0x16bb54b00f2d99416842e6bf0d89a18cdf2855cee9871e9b948ed9691198f8e19e1dc186b95735610ef6034866b53e708a8bbd4b1f74dde8c6b4a61c2e2578ba08ae7a65eaf4566ca94ed58d6d37c8e779e4959162acd3c25c2406490a3a32e0db0b5ede14b8ee4688902a22dc4f816073195d643d7ea7c41744975fec130ccdd2f3ff1021dab6bcf5389d928f40a351a89f3c507f02f94585334d43fbaaefd0cf584c4a39becb6a5bb1fc20ed00d153842fe329b3d63b52a05a6e1b1a2c830975b227ebe28012079a059618c323c7041531d871f1e5a534ccf73f362693fdb7c072a49cafa2d4adf04759fa7dc982ca76abd7fe2b670130c56f6bf27b777c63

/-- AES S-box lookup. -/
def sbox (b : Nat) : Nat := (sboxPacked >>> (8 * b)) % 256

/-- Apply the S-box to each byte of a 32-bit word. -/
def subWord (w : Nat) : Nat :=
  (sbox ((w >>> 24) % 256)) <<< 24 ||| (sbox ((w >>> 16) % 256)) <<< 16 |||
  (sbox ((w >>> 8) % 256)) <<< 8 ||| sbox (w % 256)

/-- Rotate a 32-bit word left by one byte. -/
def rotWord (w : Nat) : Nat := ((w <<< 8) ||| (w >>> 24)) % 2 ^ 32

/-- AES round constants for AES-256 key expansion. -/
def rconList : List Nat := [0x01, 0x02, 0x04, 0x08, 0x10, 0x20, 0x40]

/-- AES-256 key expansion: the 60 round-key words from a 32-byte key. -/
def keyExpansion (key : List Nat) : List Nat :=
  let w8 := (List.range 8).map (fun i => bytesToWord ((key.drop (4 * i)).take 4))
  (List.range 52).foldl
    (fun w _ =>
      let i := w.length
      let t := w.getD (i - 1) 0
      let t :=
        if i % 8 = 0 then
          subWord (rotWord t) ^^^ ((rconList.getD (i / 8 - 1) 0) <<< 24)
        else if i % 8 = 4 then subWord t
        else t
      w ++ [w.getD (i - 8) 0 ^^^ t])
    w8

/-- Multiplication by x in GF(2^8) with the AES reduction polynomial. -/
def xtime (a : Nat) : Nat := ((2 * a) % 256) ^^^ (if 128 ≤ a then 0x1b else 0)

/-- One output byte of the AES MixColumns transformation of a column. -/
def mixByte (r a0 a1 a2 a3 : Nat) : Nat :=
  if r = 0 then xtime a0 ^^^ (xtime a1 ^^^ a1) ^^^ a2 ^^^ a3
  else if r = 1 then a0 ^^^ xtime a1 ^^^ (xtime a2 ^^^ a2) ^^^ a3
  else if r = 2 then a0 ^^^ a1 ^^^ xtime a2 ^^^ (xtime a3 ^^^ a3)
  else (xtime a0 ^^^ a0) ^^^ a1 ^^^ a2 ^^^ xtime a3

/-- AES AddRoundKey: xor the state bytes with round key `r`. -/
def addRoundKey (w : List Nat) (r : Nat) (st : List Nat) : List Nat :=
  st.zipWith (· ^^^ ·)
    (word32ToBytes (w.getD (4 * r) 0) ++ word32ToBytes (w.getD (4 * r + 1) 0) ++
     word32ToBytes (w.getD (4 * r + 2) 0) ++ word32ToBytes (w.getD (4 * r + 3) 0))

/-- AES ShiftRows on the flat column-major state. -/
def shiftRows (st : List Nat) : List Nat :=
  (List.range 16).map (fun i => st.getD (4 * ((i / 4 + i % 4) % 4) + i % 4) 0)

/-- AES MixColumns on the flat column-major state. -/
def mixColumns (st : List Nat) : List Nat :=
  (List.range 16).map (fun i =>
    mixByte (i % 4) (st.getD (4 * (i / 4)) 0) (st.getD (4 * (i / 4) + 1) 0)
      (st.getD (4 * (i / 4) + 2) 0) (st.getD (4 * (i / 4) + 3) 0))

/-- AES-256 block encryption of a 128-bit word under a 32-byte key. -/
def aesBlock (key : List Nat) (x : Nat) : Nat :=
  let w := keyExpansion key
  let st := addRoundKey w 0 (word128ToBytes x)
  let st := (List.range 13).foldl
    (fun st r => addRoundKey w (r + 1) (mixColumns (shiftRows (st.map sbox)))) st
  bytesToWord (addRoundKey w 14 (shiftRows (st.map sbox)))

/-! ### GCM (NIST SP 800-38D) -/

/-- The GCM reduction constant R = 0xe1 followed by 120 zero bits. -/
def gcmR : Nat := 0xe1 <<< 120

/-- GF(2^128) multiplication in GCM bit order. -/
def gmul (x y : Nat) : Nat :=
  ((List.range 128).foldl
    (fun zv i =>
      let z := if (x >>> (127 - i)) % 2 = 1 then zv.1 ^^^ zv.2 else zv.1
      let v := if zv.2 % 2 = 0 then zv.2 >>> 1 else (zv.2 >>> 1) ^^^ gcmR
      (z, v))
    ((0, y) : Nat × Nat)).1

/-- GHASH of a list of 128-bit blocks under hash subkey `h`. -/
def ghash (h : Nat) (blocks : List Nat) : Nat :=
  blocks.foldl (fun y x => gmul (y ^^^ x) h) 0

/-- The ciphertext zero-padded into 128-bit GHASH blocks. -/
def ghashBlocks (ct : List Nat) : List Nat :=
  (List.range ((ct.length + 15) / 16)).map
    (fun i =>
      let chunk := (ct.drop (16 * i)).take 16
      bytesToWord (chunk ++ List.replicate (16 - chunk.length) 0))

/-- The pre-counter block J0 for a 96-bit nonce. -/
def gcmJ0 (nonce : List Nat) : Nat := bytesToWord nonce * 2 ^ 32 + 1

/-- Counter block `i` steps after J0 (32-bit wrapping increment). -/
def ctr32 (j0 i : Nat) : Nat := j0 / 2 ^ 32 * 2 ^ 32 + (j0 + i) % 2 ^ 32

/-- Concatenated CTR keystream blocks, starting at counter offset `i`. -/
def ctrStream (key : List Nat) (j0 i : Nat) : Nat → List Nat
  | 0 => []
  | n + 1 => word128ToBytes (aesBlock key (ctr32 j0 i)) ++ ctrStream key j0 (i + 1) n

/-- The first `n` bytes of the GCM keystream for `nonce`. -/
def keystream (key nonce : List Nat) (n : Nat) : List Nat :=
  (ctrStream key (gcmJ0 nonce) 1 ((n + 15) / 16)).take n

/-- GCM CTR encryption (its own inverse). -/
def ctrEncrypt (key nonce data : List Nat) : List Nat :=
  data.zipWith (· ^^^ ·) (keystream key nonce data.length)

/-- The 16-byte GCM authentication tag over ciphertext `ct` with empty
associated data. -/
def gcmTag (key nonce ct : List Nat) : List Nat :=
  let h := aesBlock key 0
  let s := ghash h (ghashBlocks ct ++ [8 * ct.length])
  word128ToBytes (s ^^^ aesBlock key (gcmJ0 nonce))

/-- Embeds the ring function `seal_in_place_append_tag` for AES-256-GCM with empty
associated data: ciphertext followed by the 16-byte tag. -/
def gcmSeal (key nonce plaintext : List Nat) : List Nat :=
  let ct := ctrEncrypt key nonce plaintext
  ct ++ gcmTag key nonce ct

/-- Embeds the ring function `open_in_place` for AES-256-GCM with empty associated
data.  The input is ciphertext followed by the 16-byte tag; inputs shorter
than the tag length are rejected.  On success the verified plaintext is
returned directly (the `truncate(length)` of the source on the buffer). -/
def gcmOpen (key nonce input : List Nat) : Option (List Nat) :=
  if input.length < 16 then none
  else
    let ct := input.take (input.length - 16)
    let tag := input.drop (input.length - 16)
    if tag = gcmTag key nonce ct then some (ctrEncrypt key nonce ct) else none

/-! ### The modules own AEAD envelope functions -/

/-- Embeds `NONCE_LENGTH` from crypto.rs. -/
def NONCE_LENGTH : Nat := 12

/-- Embeds `AUTH_TAG_LENGTH` from crypto.rs. -/
def AUTH_TAG_LENGTH : Nat := 16

/-- Embeds `encrypt_with_nonce` from crypto.rs: seal under the derived
encryption key, move the trailing 16-byte tag in front of the ciphertext
body (`split_off` + `unsplit`), and prepend the nonce. -/
def encrypt_with_nonce (shared_secret plaintext nonce : List Nat) : List Nat :=
  let key := hmac_sha256 shared_secret ENCRYPTION_KEY_STRING
  let sealed := gcmSeal key nonce plaintext
  let auth_tag_position := sealed.length - AUTH_TAG_LENGTH
  let tag_data := sealed.drop auth_tag_position ++ sealed.take auth_tag_position
  nonce ++ tag_data

/-- Embeds `decrypt` from crypto.rs.  The source returns
`Result<BytesMut, ()>`: both failure paths hand the caller the same unit
error value. -/
def decrypt (shared_secret ciphertext : List Nat) : Except Unit (List Nat) :=
  if ciphertext.length < AUTH_TAG_LENGTH then Except.error ()
  else
    let key := hmac_sha256 shared_secret ENCRYPTION_KEY_STRING
    let nonce := ciphertext.take NONCE_LENGTH
    let rest := ciphertext.drop NONCE_LENGTH
    let auth_tag := rest.take (min AUTH_TAG_LENGTH rest.length)
    let body := rest.drop (min AUTH_TAG_LENGTH rest.length)
    match gcmOpen key nonce (body ++ auth_tag) with
    | some plaintext => Except.ok plaintext
    | none => Except.error ()

/-! ### Error-site and abort instrumentation of `decrypt`

The spec names the two recoverable failure modes `FormatError` (the length
guard at the top of `decrypt`) and `AuthenticationError` (the
`open_in_place` failure).  `decryptE` follows the spec taxonomy by
tagging the two `Err` return sites of `decrypt`; the source itself
erases both to `Err(())`.  `decryptOps` records, in order, the
cryptographic operations the source performs on each control path
(`hmac_sha256` key derivation, `UnboundKey::new`, `open_in_place`).
`decryptChecked` guards every operation of `decrypt` that can abort in the
source - `split_to` out of range panics, `UnboundKey::new` rejects keys
whose length is not 32 - returning `none` where the source would panic. -/

/-- Recoverable decryption failures as named by the spec. -/
inductive DecryptError where
  | formatError : DecryptError
  | authenticationError : DecryptError
deriving DecidableEq, Repr

/-- Modelled from the spec: `decrypt` with its two failure return sites
tagged `FormatError` (length guard) and `AuthenticationError` (cipher open
failure); the `Result<BytesMut, ()>` of the source erases the tag. -/
def decryptE (shared_secret ciphertext : List Nat) : Except DecryptError (List Nat) :=
  if ciphertext.length < AUTH_TAG_LENGTH then Except.error DecryptError.formatError
  else
    let key := hmac_sha256 shared_secret ENCRYPTION_KEY_STRING
    let nonce := ciphertext.take NONCE_LENGTH
    let rest := ciphertext.drop NONCE_LENGTH
    let auth_tag := rest.take (min AUTH_TAG_LENGTH rest.length)
    let body := rest.drop (min AUTH_TAG_LENGTH rest.length)
    match gcmOpen key nonce (body ++ auth_tag) with
    | some plaintext => Except.ok plaintext
    | none => Except.error DecryptError.authenticationError

/-- Erase the error tag, as the `Result<BytesMut, ()>` of the source does. -/
def eraseErr (r : Except DecryptError (List Nat)) : Except Unit (List Nat) :=
  match r with
  | Except.ok p => Except.ok p
  | Except.error _ => Except.error ()

/-- The cryptographic operations `decrypt` can perform. -/
inductive CryptoOp where
  | deriveKey : CryptoOp
  | buildKey : CryptoOp
  | openCipher : CryptoOp
deriving DecidableEq, Repr

/-- The cryptographic operations `decrypt` performs, in source order, on
the control path taken for the given envelope. -/
def decryptOps (ciphertext : List Nat) : List CryptoOp :=
  if ciphertext.length < AUTH_TAG_LENGTH then []
  else [CryptoOp.deriveKey, CryptoOp.buildKey, CryptoOp.openCipher]

/-- Checked prefix split: `BytesMut::split_to`, which panics when the
requested length exceeds the buffer. -/
def splitTo (n : Nat) (l : List Nat) : Option (List Nat × List Nat) :=
  if n ≤ l.length then some (l.take n, l.drop n) else none

/-- Checked AES-256 key construction: `aead::UnboundKey::new`, which fails
unless the key material is exactly 32 bytes. -/
def mkAesKey (k : List Nat) : Option (List Nat) :=
  if k.length = 32 then some k else none

/-- The body of `decrypt` with every potentially-aborting operation
guarded: `none` marks a path on which the source would panic. -/
def decryptChecked (shared_secret ciphertext : List Nat) :
    Option (Except Unit (List Nat)) :=
  if ciphertext.length < AUTH_TAG_LENGTH then some (Except.error ())
  else
    match mkAesKey (hmac_sha256 shared_secret ENCRYPTION_KEY_STRING) with
    | none => none
    | some key =>
      match splitTo NONCE_LENGTH ciphertext with
      | none => none
      | some (nonce, rest) =>
        match splitTo (min AUTH_TAG_LENGTH rest.length) rest with
        | none => none
        | some (auth_tag, body) =>
          match gcmOpen key nonce (body ++ auth_tag) with
          | some plaintext => some (Except.ok plaintext)
          | none => some (Except.error ())

end Crypto

/-- Sanity check of the SHA-256/HMAC embedding against the crate test
`it_generates_the_same_fulfillment_as_javascript`. -/
example :
    Crypto.generate_fulfillment
      [126, 219, 117, 93, 118, 248, 249, 211, 20, 211, 65, 110, 237, 80, 253,
       179, 81, 146, 229, 67, 231, 49, 92, 127, 254, 230, 144, 102, 103, 166,
       150, 36]
      [119, 248, 213, 234, 63, 200, 224, 140, 212, 222, 105, 159, 246, 203, 66,
       155, 151, 172, 68, 24, 76, 232, 90, 10, 237, 146, 189, 73, 248, 196,
       177, 108, 115, 223] =
    [24, 6, 56, 73, 229, 236, 88, 227, 82, 112, 152, 49, 152, 73, 182, 183,
     198, 7, 233, 124, 119, 65, 13, 68, 54, 108, 120, 193, 59, 226, 107, 39] := by
  decide

/-- Sanity check of the AES-256-GCM embedding against the crate test
`it_encrypts_to_same_as_javascript`. -/
example :
    Crypto.encrypt_with_nonce
      [126, 219, 117, 93, 118, 248, 249, 211, 20, 211, 65, 110, 237, 80, 253,
       179, 81, 146, 229, 67, 231, 49, 92, 127, 254, 230, 144, 102, 103, 166,
       150, 36]
      [99, 0, 12, 255, 77, 31]
      [119, 248, 213, 234, 63, 200, 224, 140, 212, 222, 105, 159] =
    [119, 248, 213, 234, 63, 200, 224, 140, 212, 222, 105, 159, 246, 203, 66,
     155, 151, 172, 68, 24, 76, 232, 90, 10, 237, 146, 189, 73, 248, 196, 177,
     108, 115, 223] := by
  decide

namespace Crypto

/-! ### Length lemmas -/

theorem length_word128ToBytes (x : Nat) : (word128ToBytes x).length = 16 := by
  simp [word128ToBytes]

theorem length_hash8Bytes (s : Hash8) : (hash8Bytes s).length = 32 := by
  simp [hash8Bytes, word32ToBytes]

theorem length_sha256 (m : List Nat) : (sha256 m).length = 32 :=
  length_hash8Bytes _

theorem length_hmac_sha256 (k m : List Nat) : (hmac_sha256 k m).length = 32 :=
  length_sha256 _

theorem length_gcmTag (key nonce ct : List Nat) : (gcmTag key nonce ct).length = 16 :=
  length_word128ToBytes _

theorem length_ctrStream (key : List Nat) (j0 : Nat) :
    ∀ (n i : Nat), (ctrStream key j0 i n).length = 16 * n := by
  intro n
  induction n with
  | zero => intro i; rfl
  | succ m ih =>
    intro i
    simp only [ctrStream, List.length_append, length_word128ToBytes, ih]
    omega

theorem length_keystream (key nonce : List Nat) (n : Nat) :
    (keystream key nonce n).length = n := by
  simp only [keystream, List.length_take, length_ctrStream]
  omega

theorem length_ctrEncrypt (key nonce d : List Nat) :
    (ctrEncrypt key nonce d).length = d.length := by
  simp [ctrEncrypt, List.length_zipWith, length_keystream]

/-! ### CTR mode is an involution -/

theorem zipWith_xor_cancel :
    ∀ (a b : List Nat), a.length = b.length →
      (a.zipWith (· ^^^ ·) b).zipWith (· ^^^ ·) b = a := by
  intro a
  induction a with
  | nil => intro b h; simp
  | cons x xs ih =>
    intro b h
    cases b with
    | nil => simp at h
    | cons y ys =>
      simp only [List.zipWith_cons_cons]
      rw [Nat.xor_assoc, Nat.xor_self, Nat.xor_zero, ih ys (by simpa using h)]

theorem ctrEncrypt_ctrEncrypt (key nonce d : List Nat) :
    ctrEncrypt key nonce (ctrEncrypt key nonce d) = d := by
  show (ctrEncrypt key nonce d).zipWith (· ^^^ ·)
      (keystream key nonce (ctrEncrypt key nonce d).length) = d
  rw [length_ctrEncrypt]
  show (d.zipWith (· ^^^ ·) (keystream key nonce d.length)).zipWith (· ^^^ ·)
      (keystream key nonce d.length) = d
  exact zipWith_xor_cancel d _ (length_keystream key nonce d.length).symm

/-! ### Sealing and opening -/

theorem gcmOpen_short (key nonce input : List Nat) (h : input.length < 16) :
    gcmOpen key nonce input = none := by
  simp [gcmOpen, h]

theorem gcmOpen_gcmSeal (key nonce c : List Nat) :
    gcmOpen key nonce (c ++ gcmTag key nonce c) = some (ctrEncrypt key nonce c) := by
  have htag : (gcmTag key nonce c).length = 16 := length_gcmTag key nonce c
  have hnlt : ¬ ((c ++ gcmTag key nonce c).length < 16) := by
    simp [htag]
  have hsub : (c ++ gcmTag key nonce c).length - 16 = c.length := by
    simp [htag]
  simp only [gcmOpen, if_neg hnlt, hsub, List.take_left' rfl, List.drop_left' rfl,
    if_pos rfl]
  simp

theorem encrypt_with_nonce_eq (s p nonce : List Nat) :
    encrypt_with_nonce s p nonce =
      nonce ++
        (gcmTag (hmac_sha256 s ENCRYPTION_KEY_STRING) nonce
            (ctrEncrypt (hmac_sha256 s ENCRYPTION_KEY_STRING) nonce p) ++
          ctrEncrypt (hmac_sha256 s ENCRYPTION_KEY_STRING) nonce p) := by
  have htag : (gcmTag (hmac_sha256 s ENCRYPTION_KEY_STRING) nonce
      (ctrEncrypt (hmac_sha256 s ENCRYPTION_KEY_STRING) nonce p)).length = 16 :=
    length_gcmTag _ _ _
  have hsub :
      (ctrEncrypt (hmac_sha256 s ENCRYPTION_KEY_STRING) nonce p ++
        gcmTag (hmac_sha256 s ENCRYPTION_KEY_STRING) nonce
          (ctrEncrypt (hmac_sha256 s ENCRYPTION_KEY_STRING) nonce p)).length - 16 =
      (ctrEncrypt (hmac_sha256 s ENCRYPTION_KEY_STRING) nonce p).length := by
    simp [htag]
  simp only [encrypt_with_nonce, gcmSeal, AUTH_TAG_LENGTH, hsub,
    List.take_left' rfl, List.drop_left' rfl]

theorem decrypt_append (s nonce t b : List Nat)
    (h12 : nonce.length = 12) (h16 : t.length = 16) :
    decrypt s (nonce ++ (t ++ b)) =
      match gcmOpen (hmac_sha256 s ENCRYPTION_KEY_STRING) nonce (b ++ t) with
      | some plaintext => Except.ok plaintext
      | none => Except.error () := by
  have hnlt : ¬ ((nonce ++ (t ++ b)).length < AUTH_TAG_LENGTH) := by
    simp [AUTH_TAG_LENGTH, h12, h16]
    omega
  have hdrop : (nonce ++ (t ++ b)).drop NONCE_LENGTH = t ++ b :=
    List.drop_left' (by simp [NONCE_LENGTH, h12])
  have htake : (nonce ++ (t ++ b)).take NONCE_LENGTH = nonce :=
    List.take_left' (by simp [NONCE_LENGTH, h12])
  have hmin : min AUTH_TAG_LENGTH (t ++ b).length = 16 := by
    simp [AUTH_TAG_LENGTH, h16]
  simp only [decrypt, if_neg hnlt, hdrop, htake, hmin,
    List.take_left' h16, List.drop_left' h16]

/-! ### Claim theorems -/

/-- C1: for every shared secret, plaintext and 12-byte nonce, decrypting
the envelope produced by `encrypt_with_nonce` with the same shared secret
succeeds and returns the original plaintext. -/
theorem C1_roundtrip (s p nonce : List Nat) (h12 : nonce.length = 12) :
    decrypt s (encrypt_with_nonce s p nonce) = Except.ok p := by
  rw [encrypt_with_nonce_eq,
    decrypt_append s nonce _ _ h12 (length_gcmTag _ _ _),
    gcmOpen_gcmSeal, ctrEncrypt_ctrEncrypt]

/-- Witness for C1 at a concrete secret, plaintext and nonce. -/
theorem C1_roundtrip_witness :
    ([0, 1, 2, 3, 4, 5, 6, 7, 8, 9, 10, 11] : List Nat).length = 12 ∧
    decrypt [7] (encrypt_with_nonce [7] [42, 0, 255]
        [0, 1, 2, 3, 4, 5, 6, 7, 8, 9, 10, 11]) =
      Except.ok [42, 0, 255] :=
  ⟨by decide,
   C1_roundtrip [7] [42, 0, 255] [0, 1, 2, 3, 4, 5, 6, 7, 8, 9, 10, 11] (by decide)⟩

/-- C2: for every shared secret, plaintext and 12-byte nonce the envelope
is exactly nonce, then the 16-byte tag, then the ciphertext body of the
same length as the plaintext; its first 12 bytes are the nonce and its
total length is the plaintext length plus 28. -/
theorem C2_wire_format (s p nonce : List Nat) (h12 : nonce.length = 12) :
    encrypt_with_nonce s p nonce =
      nonce ++
        gcmTag (hmac_sha256 s ENCRYPTION_KEY_STRING) nonce
          (ctrEncrypt (hmac_sha256 s ENCRYPTION_KEY_STRING) nonce p) ++
        ctrEncrypt (hmac_sha256 s ENCRYPTION_KEY_STRING) nonce p ∧
    (gcmTag (hmac_sha256 s ENCRYPTION_KEY_STRING) nonce
        (ctrEncrypt (hmac_sha256 s ENCRYPTION_KEY_STRING) nonce p)).length = 16 ∧
    (ctrEncrypt (hmac_sha256 s ENCRYPTION_KEY_STRING) nonce p).length = p.length ∧
    (encrypt_with_nonce s p nonce).take 12 = nonce ∧
    (encrypt_with_nonce s p nonce).length = p.length + 28 := by
  refine ⟨?_, length_gcmTag _ _ _, length_ctrEncrypt _ _ _, ?_, ?_⟩
  · rw [encrypt_with_nonce_eq, List.append_assoc]
  · rw [encrypt_with_nonce_eq]
    exact List.take_left' h12
  · rw [encrypt_with_nonce_eq]
    simp only [List.length_append, h12, length_gcmTag, length_ctrEncrypt]
    omega

/-- Witness for C2 at a concrete secret, plaintext and nonce. -/
theorem C2_wire_format_witness :
    ([0, 1, 2, 3, 4, 5, 6, 7, 8, 9, 10, 11] : List Nat).length = 12 ∧
    (encrypt_with_nonce [7] [9, 9] [0, 1, 2, 3, 4, 5, 6, 7, 8, 9, 10, 11] =
      [0, 1, 2, 3, 4, 5, 6, 7, 8, 9, 10, 11] ++
        gcmTag (hmac_sha256 [7] ENCRYPTION_KEY_STRING)
          [0, 1, 2, 3, 4, 5, 6, 7, 8, 9, 10, 11]
          (ctrEncrypt (hmac_sha256 [7] ENCRYPTION_KEY_STRING)
            [0, 1, 2, 3, 4, 5, 6, 7, 8, 9, 10, 11] [9, 9]) ++
        ctrEncrypt (hmac_sha256 [7] ENCRYPTION_KEY_STRING)
          [0, 1, 2, 3, 4, 5, 6, 7, 8, 9, 10, 11] [9, 9] ∧
    (gcmTag (hmac_sha256 [7] ENCRYPTION_KEY_STRING)
        [0, 1, 2, 3, 4, 5, 6, 7, 8, 9, 10, 11]
        (ctrEncrypt (hmac_sha256 [7] ENCRYPTION_KEY_STRING)
          [0, 1, 2, 3, 4, 5, 6, 7, 8, 9, 10, 11] [9, 9])).length = 16 ∧
    (ctrEncrypt (hmac_sha256 [7] ENCRYPTION_KEY_STRING)
        [0, 1, 2, 3, 4, 5, 6, 7, 8, 9, 10, 11] [9, 9]).length = ([9, 9] : List Nat).length ∧
    (encrypt_with_nonce [7] [9, 9] [0, 1, 2, 3, 4, 5, 6, 7, 8, 9, 10, 11]).take 12 =
      [0, 1, 2, 3, 4, 5, 6, 7, 8, 9, 10, 11] ∧
    (encrypt_with_nonce [7] [9, 9] [0, 1, 2, 3, 4, 5, 6, 7, 8, 9, 10, 11]).length =
      ([9, 9] : List Nat).length + 28) :=
  ⟨by decide, C2_wire_format [7] [9, 9] [0, 1, 2, 3, 4, 5, 6, 7, 8, 9, 10, 11] (by decide)⟩

/-- C3: the condition is the SHA-256 of the fulfillment, and the
fulfillment is the double HMAC of the shared secret with the fulfillment
label and then the data. -/
theorem C3_hash_lock (s d : List Nat) :
    generate_condition s d = sha256 (generate_fulfillment s d) ∧
    generate_fulfillment s d =
      hmac_sha256 (hmac_sha256 s FULFILLMENT_GENERATION_STRING) d :=
  ⟨rfl, rfl⟩

/-- C4: any envelope shorter than 16 bytes is rejected at the length
guard - the tagged failure site is the format error - and no cryptographic
operation is performed on that path. -/
theorem C4_length_guard (s c : List Nat) (h : c.length < 16) :
    decrypt s c = Except.error () ∧
    decryptE s c = Except.error DecryptError.formatError ∧
    decryptOps c = [] := by
  refine ⟨?_, ?_, ?_⟩ <;>
    simp [decrypt, decryptE, decryptOps, AUTH_TAG_LENGTH, h]

/-- Witness for C4 at the empty envelope. -/
theorem C4_length_guard_witness :
    ([] : List Nat).length < 16 ∧
    (decrypt [7] [] = Except.error () ∧
     decryptE [7] [] = Except.error DecryptError.formatError ∧
     decryptOps [] = []) :=
  ⟨by decide, C4_length_guard [7] [] (by decide)⟩

/-- C5: an envelope of length at least 16 and below 28 is not rejected by
the format guard; the tag extraction takes all remaining bytes and the
cipher open is attempted (and fails authentication). -/
theorem C5_lenient_tag (s c : List Nat) (h1 : 16 ≤ c.length) (h2 : c.length < 28) :
    decryptE s c = Except.error DecryptError.authenticationError ∧
    decryptE s c ≠ Except.error DecryptError.formatError ∧
    decryptOps c = [CryptoOp.deriveKey, CryptoOp.buildKey, CryptoOp.openCipher] := by
  have h3 : ¬ (c.length < AUTH_TAG_LENGTH) := by
    simp only [AUTH_TAG_LENGTH]
    omega
  have hm : min AUTH_TAG_LENGTH (c.drop NONCE_LENGTH).length =
      (c.drop NONCE_LENGTH).length := by
    simp only [AUTH_TAG_LENGTH, NONCE_LENGTH, List.length_drop]
    omega
  have hopen : gcmOpen (hmac_sha256 s ENCRYPTION_KEY_STRING) (c.take NONCE_LENGTH)
      (c.drop NONCE_LENGTH) = none :=
    gcmOpen_short _ _ _ (by simp only [NONCE_LENGTH, List.length_drop]; omega)
  have hfin : decryptE s c = Except.error DecryptError.authenticationError := by
    simp only [decryptE, if_neg h3, hm, List.take_length, List.drop_length,
      List.nil_append, hopen]
  refine ⟨hfin, ?_, ?_⟩
  · rw [hfin]
    simp
  · simp only [decryptOps, if_neg h3]

/-- Witness for C5 at a concrete 16-byte envelope. -/
theorem C5_lenient_tag_witness :
    16 ≤ ([0, 0, 0, 0, 0, 0, 0, 0, 0, 0, 0, 0, 0, 0, 0, 0] : List Nat).length ∧
    ([0, 0, 0, 0, 0, 0, 0, 0, 0, 0, 0, 0, 0, 0, 0, 0] : List Nat).length < 28 ∧
    (decryptE [7] [0, 0, 0, 0, 0, 0, 0, 0, 0, 0, 0, 0, 0, 0, 0, 0] =
        Except.error DecryptError.authenticationError ∧
     decryptE [7] [0, 0, 0, 0, 0, 0, 0, 0, 0, 0, 0, 0, 0, 0, 0, 0] ≠
        Except.error DecryptError.formatError ∧
     decryptOps [0, 0, 0, 0, 0, 0, 0, 0, 0, 0, 0, 0, 0, 0, 0, 0] =
        [CryptoOp.deriveKey, CryptoOp.buildKey, CryptoOp.openCipher]) :=
  ⟨by decide, by decide,
   C5_lenient_tag [7] [0, 0, 0, 0, 0, 0, 0, 0, 0, 0, 0, 0, 0, 0, 0, 0]
     (by decide) (by decide)⟩

/-- C6 counterexample: a too-short envelope and an envelope failing
authentication hit the two distinct failure sites, yet `decrypt` hands the
caller the same value `Except.error ()` for both, so the two failure cases
are not distinguishable by the returned value. -/
theorem C6_counterexample :
    decryptE [7] [] = Except.error DecryptError.formatError ∧
    decryptE [7] [0, 0, 0, 0, 0, 0, 0, 0, 0, 0, 0, 0, 0, 0, 0, 0] =
      Except.error DecryptError.authenticationError ∧
    decrypt [7] [] = decrypt [7] [0, 0, 0, 0, 0, 0, 0, 0, 0, 0, 0, 0, 0, 0, 0, 0] :=
  ⟨rfl, rfl, rfl⟩

/-- C6 (amended): `decrypt` returns either the plaintext or an explicit
failure value, and it is exactly the erasure of the two-failure-mode
refinement `decryptE`: both the format-guard failure and the
authentication failure are collapsed to the single unit error value. -/
theorem C6_error_erasure (s c : List Nat) :
    decrypt s c = eraseErr (decryptE s c) := by
  by_cases h : c.length < AUTH_TAG_LENGTH
  · simp [decrypt, decryptE, eraseErr, h]
  · simp only [decrypt, decryptE, if_neg h]
    split
    next pt heq => rfl
    next heq => rfl

/-- C7: the concrete interoperability vector for `generate_fulfillment`
from the spec and the crate test
`it_generates_the_same_fulfillment_as_javascript`. -/
theorem C7_fulfillment_vector :
    generate_fulfillment
      [126, 219, 117, 93, 118, 248, 249, 211, 20, 211, 65, 110, 237, 80, 253,
       179, 81, 146, 229, 67, 231, 49, 92, 127, 254, 230, 144, 102, 103, 166,
       150, 36]
      [119, 248, 213, 234, 63, 200, 224, 140, 212, 222, 105, 159, 246, 203, 66,
       155, 151, 172, 68, 24, 76, 232, 90, 10, 237, 146, 189, 73, 248, 196,
       177, 108, 115, 223] =
    [24, 6, 56, 73, 229, 236, 88, 227, 82, 112, 152, 49, 152, 73, 182, 183,
     198, 7, 233, 124, 119, 65, 13, 68, 54, 108, 120, 193, 59, 226, 107, 39] := by
  decide

/-- C10: `decrypt` is total and never aborts: the panic-guarded model
`decryptChecked`, in which every `split_to` and the AES key construction
are checked, always returns `some` and agrees with `decrypt` on every
shared secret and envelope. -/
theorem C10_decrypt_total (s c : List Nat) :
    decryptChecked s c = some (decrypt s c) := by
  by_cases h : c.length < AUTH_TAG_LENGTH
  · simp [decryptChecked, decrypt, h]
  · have hk : mkAesKey (hmac_sha256 s ENCRYPTION_KEY_STRING) =
        some (hmac_sha256 s ENCRYPTION_KEY_STRING) := by
      simp [mkAesKey, length_hmac_sha256]
    have h12le : NONCE_LENGTH ≤ c.length := by
      simp only [NONCE_LENGTH, AUTH_TAG_LENGTH] at h ⊢
      omega
    have hs1 : splitTo NONCE_LENGTH c = some (c.take NONCE_LENGTH, c.drop NONCE_LENGTH) := by
      simp [splitTo, h12le]
    have hs2 : splitTo (min AUTH_TAG_LENGTH (c.drop NONCE_LENGTH).length)
        (c.drop NONCE_LENGTH) =
        some ((c.drop NONCE_LENGTH).take (min AUTH_TAG_LENGTH (c.drop NONCE_LENGTH).length),
              (c.drop NONCE_LENGTH).drop (min AUTH_TAG_LENGTH (c.drop NONCE_LENGTH).length)) := by
      simp [splitTo, Nat.min_le_right]
    simp only [decryptChecked, decrypt, if_neg h, hk, hs1, hs2]
    split
    next pt heq => rfl
    next heq => rfl
